import Mathlib

/-!
Shallow embedding of the core of the `qwen-api` repository:

* `src/py-api/qwen-api/token_compressor.py` — the credential codec
  (`compress_qwen_token`, `decompress_qwen_token`, `validate_compressed_token`);
* `src/app/utils/request_tracker.py` — the request-correlation tracker
  (`RequestContext`, `RequestTracker` operations, the `track_request`
  context manager, the cleanup sweep);
* `src/app/qwen-api/http_client.py` — the resilient HTTP client
  (`ProxiedHTTPClient._make_request_with_retry`).

Python strings are modelled as `List Char`, byte strings as `List Nat`,
wall-clock timestamps as `Nat`, and Python dicts (which preserve insertion
order) as association lists with unique keys.  The standard-library codecs
`gzip.compress`/`gzip.decompress` and `base64.b64encode`/`base64.b64decode`
are not repository code; they are passed as explicit function parameters,
with failure of the decoding direction modelled as `Option`.
-/

namespace TokenCompressor

/-- The pipe separator `'|'` used by `compress_qwen_token` to join the two
credential strings (`combined = f"{web_api_token}|{ssxmod_itna}"`). -/
def pipeChar : Char := '|'

/-- Python's `str.encode('utf-8')`, restricted to the ASCII plane: each code
point below 128 is emitted as a single byte equal to the code point.  The
claims only concern printable-ASCII credentials, where this model is exact. -/
def utf8Encode (s : List Char) : List Nat := s.map Char.toNat

/-- Python's `bytes.decode('utf-8')` as used in `decompress_qwen_token`:
succeeds on pure-ASCII byte strings (yielding one character per byte) and is
modelled as failing otherwise; a decoding failure in the source is caught by
the final `except Exception` clause and mapped to `(None, None)`. -/
def utf8Decode (bs : List Nat) : Option (List Char) :=
  if bs.all (fun b => b < 128) then some (bs.map Char.ofNat) else none

/-- Python's `decompressed.split('|', 1)` under the guard that the separator
occurs: the part before the first separator and everything after it. -/
def splitOnce (sep : Char) : List Char → List Char × List Char
  | [] => ([], [])
  | c :: cs =>
    if c = sep then ([], cs)
    else
      let p := splitOnce sep cs
      (c :: p.1, p.2)

/-- `compress_qwen_token(web_api_token, ssxmod_itna)` from
`token_compressor.py`: join the credentials with `'|'`, UTF-8 encode, gzip
(`gzipC`), base64-encode (`b64E`).  The two codec functions stand for the
`gzip` and `base64` standard-library calls. -/
def compress_qwen_token (gzipC : List Nat → List Nat) (b64E : List Nat → List Char)
    (web_api_token ssxmod_itna : List Char) : List Char :=
  let combined := web_api_token ++ pipeChar :: ssxmod_itna
  b64E (gzipC (utf8Encode combined))

/-- `decompress_qwen_token(compressed_token)` from `token_compressor.py`:
base64-decode (`b64D`), gzip-decompress (`gzipD`), UTF-8 decode, then split on
the first `'|'`.  Every failure — `binascii.Error`, `BadGzipFile`, a decode
error caught by `except Exception`, or a missing separator — yields
`(None, None)`.  (The source's `len(parts) != 2` check is unreachable: a
`split('|', 1)` after the `'|' in decompressed` guard always yields 2 parts.) -/
def decompress_qwen_token (gzipD : List Nat → Option (List Nat))
    (b64D : List Char → Option (List Nat)) (compressed_token : List Char) :
    Option (List Char) × Option (List Char) :=
  match b64D compressed_token with
  | none => (none, none)
  | some decoded =>
    match gzipD decoded with
    | none => (none, none)
    | some decompressedBytes =>
      match utf8Decode decompressedBytes with
      | none => (none, none)
      | some decompressed =>
        if pipeChar ∈ decompressed then
          let parts := splitOnce pipeChar decompressed
          (some parts.1, some parts.2)
        else (none, none)

/-- `validate_compressed_token(compressed_token)` from `token_compressor.py`:
`web_token is not None and cookie is not None` after a decompression attempt. -/
def validate_compressed_token (gzipD : List Nat → Option (List Nat))
    (b64D : List Char → Option (List Nat)) (compressed_token : List Char) : Bool :=
  match decompress_qwen_token gzipD b64D compressed_token with
  | (some _, some _) => true
  | _ => false

/-- Splitting once at the separator undoes joining with it, provided the left
part does not contain the separator. -/
theorem splitOnce_append (sep : Char) (a b : List Char) (ha : sep ∉ a) :
    splitOnce sep (a ++ sep :: b) = (a, b) := by
  induction a with
  | nil => simp [splitOnce]
  | cons c cs ih =>
    have hc : c ≠ sep := fun h => ha (h ▸ List.mem_cons_self c cs)
    have hcs : sep ∉ cs := fun h => ha (List.mem_cons_of_mem c h)
    simp [splitOnce, hc, ih hcs]

/-- UTF-8 decoding undoes UTF-8 encoding on ASCII strings. -/
theorem utf8Decode_utf8Encode (s : List Char) (h : ∀ c ∈ s, c.toNat < 128) :
    utf8Decode (utf8Encode s) = some s := by
  unfold utf8Decode utf8Encode
  rw [if_pos]
  · congr 1
    rw [List.map_map]
    exact List.map_id'' (fun c => Char.ofNat_toNat c) s
  · simpa [List.all_eq_true] using h

/-- C6: For all printable-ASCII strings `a` and `b` with no embedded `'|'`
separator, and codec functions that invert each other on this payload (as
`gzip` and `base64` do), `decompress_qwen_token (compress_qwen_token a b)`
returns the original pair `(a, b)`. -/
theorem decompress_compress_roundtrip
    (gzipC : List Nat → List Nat) (gzipD : List Nat → Option (List Nat))
    (b64E : List Nat → List Char) (b64D : List Char → Option (List Nat))
    (a b : List Char)
    (hprintable : ∀ c ∈ a ++ pipeChar :: b, 32 ≤ c.toNat ∧ c.toNat ≤ 126)
    (hpa : pipeChar ∉ a)
    (hgzip : gzipD (gzipC (utf8Encode (a ++ pipeChar :: b)))
      = some (utf8Encode (a ++ pipeChar :: b)))
    (hb64 : b64D (b64E (gzipC (utf8Encode (a ++ pipeChar :: b))))
      = some (gzipC (utf8Encode (a ++ pipeChar :: b)))) :
    decompress_qwen_token gzipD b64D (compress_qwen_token gzipC b64E a b)
      = (some a, some b) := by
  have hascii : ∀ c ∈ a ++ pipeChar :: b, c.toNat < 128 := fun c hc =>
    lt_of_le_of_lt (hprintable c hc).2 (by norm_num)
  have hmem : pipeChar ∈ a ++ pipeChar :: b :=
    List.mem_append_right a (List.mem_cons_self _ _)
  unfold compress_qwen_token decompress_qwen_token
  simp only [hb64, hgzip, utf8Decode_utf8Encode _ hascii, hmem, if_pos,
    splitOnce_append pipeChar a b hpa]

/-- Witness for C6 at `a = "x"`, `b = "y"` with identity-style codecs. -/
theorem decompress_compress_roundtrip_witness :
    decompress_qwen_token (fun bs => some bs) (fun cs => some (cs.map Char.toNat))
      (compress_qwen_token (fun bs => bs) (fun bs => bs.map Char.ofNat)
        [⟨120, by decide⟩] [⟨121, by decide⟩])
      = (some [⟨120, by decide⟩], some [⟨121, by decide⟩]) :=
  decompress_compress_roundtrip (fun bs => bs) (fun bs => some bs)
    (fun bs => bs.map Char.ofNat) (fun cs => some (cs.map Char.toNat))
    [⟨120, by decide⟩] [⟨121, by decide⟩]
    (by decide) (by decide) (by decide) (by decide)

/-- C7: `decompress_qwen_token` is all-or-nothing: it returns either both
credential parts or the single malformed-token outcome `(none, none)`; each
failure mode — base64 decode failure, gzip decompression failure, UTF-8 decode
failure, and an absent `'|'` separator — produces `(none, none)`; and
`validate_compressed_token` returns `true` exactly when decoding succeeds with
both parts (being a total function, neither ever throws). -/
theorem decompress_all_or_nothing
    (gzipD : List Nat → Option (List Nat)) (b64D : List Char → Option (List Nat))
    (t : List Char) :
    ((∃ a b, decompress_qwen_token gzipD b64D t = (some a, some b)) ∨
      decompress_qwen_token gzipD b64D t = (none, none))
    ∧ (validate_compressed_token gzipD b64D t = true ↔
        ∃ a b, decompress_qwen_token gzipD b64D t = (some a, some b))
    ∧ (b64D t = none → decompress_qwen_token gzipD b64D t = (none, none))
    ∧ (∀ d, b64D t = some d → gzipD d = none →
        decompress_qwen_token gzipD b64D t = (none, none))
    ∧ (∀ d bs, b64D t = some d → gzipD d = some bs → utf8Decode bs = none →
        decompress_qwen_token gzipD b64D t = (none, none))
    ∧ (∀ d bs s, b64D t = some d → gzipD d = some bs → utf8Decode bs = some s →
        pipeChar ∉ s → decompress_qwen_token gzipD b64D t = (none, none)) := by
  refine ⟨?_, ?_, ?_, ?_, ?_, ?_⟩
  · rcases hb : b64D t with _ | d
    · exact Or.inr (by simp [decompress_qwen_token, hb])
    rcases hg : gzipD d with _ | bs
    · exact Or.inr (by simp [decompress_qwen_token, hb, hg])
    rcases hu : utf8Decode bs with _ | s
    · exact Or.inr (by simp [decompress_qwen_token, hb, hg, hu])
    by_cases hp : pipeChar ∈ s
    · exact Or.inl ⟨(splitOnce pipeChar s).1, (splitOnce pipeChar s).2,
        by simp [decompress_qwen_token, hb, hg, hu, hp]⟩
    · exact Or.inr (by simp [decompress_qwen_token, hb, hg, hu, hp])
  · unfold validate_compressed_token
    rcases h : decompress_qwen_token gzipD b64D t with ⟨_ | a, _ | b⟩ <;>
      simp
  · intro hb
    simp [decompress_qwen_token, hb]
  · intro d hb hg
    simp [decompress_qwen_token, hb, hg]
  · intro d bs hb hg hu
    simp [decompress_qwen_token, hb, hg, hu]
  · intro d bs s hb hg hu hp
    simp [decompress_qwen_token, hb, hg, hu, hp]

/-- Witness for C7 at concrete codecs and input, exercising the
gzip-failure conjunct at the token `"z"`. -/
theorem decompress_all_or_nothing_witness :
    decompress_qwen_token (fun _ => none) (fun _ => some [122])
      [⟨122, by decide⟩] = (none, none) :=
  (decompress_all_or_nothing (fun _ => none) (fun _ => some [122])
    [⟨122, by decide⟩]).2.2.2.1 [122] rfl rfl

/-- C8: `compress_qwen_token` is deterministic: two calls with identical
credential strings and identical compression parameters (the same `gzip` and
`base64` encoders) produce the same token. -/
theorem compress_deterministic
    (gzipC gzipC' : List Nat → List Nat) (b64E b64E' : List Nat → List Char)
    (a b a' b' : List Char)
    (hg : gzipC = gzipC') (hb : b64E = b64E') (ha : a = a') (hb' : b = b') :
    compress_qwen_token gzipC b64E a b = compress_qwen_token gzipC' b64E' a' b' := by
  subst hg hb ha hb'
  rfl

/-- Witness for C8 at `a = "x"`, `b = "y"` with identity-style codecs. -/
theorem compress_deterministic_witness :
    compress_qwen_token (fun bs => bs) (fun bs => bs.map Char.ofNat)
      [⟨120, by decide⟩] [⟨121, by decide⟩]
      = compress_qwen_token (fun bs => bs) (fun bs => bs.map Char.ofNat)
        [⟨120, by decide⟩] [⟨121, by decide⟩] :=
  compress_deterministic _ _ _ _ _ _ _ _ rfl rfl rfl rfl

end TokenCompressor

namespace RequestTracker

/-- `RequestContext` from `request_tracker.py`.  `status` is a Python string
(`"pending"`, `"success"`, `"failed"`, `"timeout"`); timestamps are `Nat`. -/
structure RequestContext where
  request_id : String
  proxy_url : Option String
  target_url : Option String
  start_time : Nat
  end_time : Option Nat
  status : String
  error : Option String
  retry_count : Nat
  metadata : List (String × String)
deriving Repr, DecidableEq

/-- The `is_completed` property: `status in ("success", "failed", "timeout")`. -/
def RequestContext.is_completed (c : RequestContext) : Bool :=
  c.status = "success" ∨ c.status = "failed" ∨ c.status = "timeout"

/-- The mutable state of a `RequestTracker` instance: the two insertion-ordered
dicts (as association lists), the configuration, and the statistics counters. -/
structure TrackerState where
  active : List (String × RequestContext)
  completed : List (String × RequestContext)
  max_tracked_requests : Nat
  cleanup_interval : Nat
  max_request_age : Nat
  total_requests : Nat
  successful_requests : Nat
  failed_requests : Nat
  timeout_requests : Nat
deriving Repr, DecidableEq

/-- `RequestTracker.__init__` with all counters zero and both dicts empty. -/
def initTracker (max_tracked_requests cleanup_interval max_request_age : Nat) :
    TrackerState :=
  ⟨[], [], max_tracked_requests, cleanup_interval, max_request_age, 0, 0, 0, 0⟩

/-- Python dict lookup `m[k]` / `k in m` on an insertion-ordered dict. -/
def alookup (m : List (String × RequestContext)) (k : String) :
    Option RequestContext :=
  match m with
  | [] => none
  | p :: ps => if p.1 = k then some p.2 else alookup ps k

/-- Python dict assignment `m[k] = v`: replace in place when the key exists,
append otherwise. -/
def dictInsert (m : List (String × RequestContext)) (k : String)
    (v : RequestContext) : List (String × RequestContext) :=
  if (m.map Prod.fst).contains k then
    m.map fun p => if p.1 = k then (k, v) else p
  else m ++ [(k, v)]

/-- Python dict deletion `m.pop(k)` / `del m[k]` (effect on the dict). -/
def dictRemove (m : List (String × RequestContext)) (k : String) :
    List (String × RequestContext) :=
  m.filter fun p => ¬ p.1 = k

/-- Python truthiness of an optional string (`if status:` / `if error:`):
`None` and the empty string are falsy. -/
def truthyStr : Option String → Bool
  | none => false
  | some s => ¬ s.isEmpty

/-- Python `dict.update(patch)`: existing keys are overwritten in place,
new keys are appended in patch order. -/
def dictUpdate (m patch : List (String × String)) : List (String × String) :=
  patch.foldl
    (fun acc kv =>
      if (acc.map Prod.fst).contains kv.1 then
        acc.map fun p => if p.1 = kv.1 then kv else p
      else acc ++ [kv])
    m

/-- The statistics update shared by `update_context` and `complete_request`:
bump the counter matching a terminal status string, leave all else unchanged. -/
def bumpCounters (s : TrackerState) (status : String) : TrackerState :=
  if status = "success" then
    { s with successful_requests := s.successful_requests + 1 }
  else if status = "failed" then
    { s with failed_requests := s.failed_requests + 1 }
  else if status = "timeout" then
    { s with timeout_requests := s.timeout_requests + 1 }
  else s

/-- The `RequestContext` literal built by `create_context`: pending, no end
time, no error, zero retries. -/
def pendingCtx (request_id : String) (now : Nat) (target_url : String)
    (proxy_url : Option String) (metadata : List (String × String)) :
    RequestContext :=
  { request_id := request_id
    proxy_url := proxy_url
    target_url := some target_url
    start_time := now
    end_time := none
    status := "pending"
    error := none
    retry_count := 0
    metadata := metadata }

/-- `RequestTracker.create_context`: build a fresh pending context, insert it
into the active dict, and increment the total-request counter.  The generated
`uuid` id and the `time.time()` reading are passed in explicitly. -/
def create_context (s : TrackerState) (request_id : String) (now : Nat)
    (target_url : String) (proxy_url : Option String)
    (metadata : List (String × String)) : TrackerState × RequestContext :=
  let context := pendingCtx request_id now target_url proxy_url metadata
  ({ s with active := dictInsert s.active request_id context
            total_requests := s.total_requests + 1 },
    context)

/-- `RequestTracker.update_context`: when the id is active, optionally set a
(truthy) status — stamping `end_time` and bumping the matching counter —
optionally set a (truthy) error, and merge a (truthy) metadata patch; a no-op
for ids not in the active dict. -/
def update_context (s : TrackerState) (request_id : String)
    (status : Option String) (error : Option String)
    (metadata : Option (List (String × String))) (now : Nat) : TrackerState :=
  match alookup s.active request_id with
  | none => s
  | some context =>
    let context :=
      if truthyStr status then
        { context with status := status.getD "", end_time := some now }
      else context
    let context :=
      if truthyStr error then { context with error := error } else context
    let context :=
      match metadata with
      | some patch =>
        if patch.isEmpty then context
        else { context with metadata := dictUpdate context.metadata patch }
      | none => context
    let s := { s with active := dictInsert s.active request_id context }
    if truthyStr status then bumpCounters s (status.getD "") else s

/-- The sort key `x[1].end_time or 0` used when evicting completed entries. -/
def endKey (p : String × RequestContext) : Nat := p.2.end_time.getD 0

/-- The comparison used to model Python's stable `sorted(..., key=end_time or 0)`. -/
def endKeyLE (p q : String × RequestContext) : Prop := endKey p ≤ endKey q

instance : DecidableRel endKeyLE := fun p q => Nat.decLe (endKey p) (endKey q)

instance : IsTotal (String × RequestContext) endKeyLE :=
  ⟨fun p q => Nat.le_total (endKey p) (endKey q)⟩

instance : IsTrans (String × RequestContext) endKeyLE :=
  ⟨fun _ _ _ h h' => Nat.le_trans h h'⟩

/-- `RequestTracker.complete_request`: when the id is active, pop the context,
overwrite its `status`/`end_time`/`error`, bump the matching counter, store it
in the completed dict, and — when the completed dict then exceeds
`max_tracked_requests` — evict the oldest-by-`end_time` entries until exactly
`max_tracked_requests` remain; a no-op for ids not in the active dict. -/
def complete_request (s : TrackerState) (request_id : String) (status : String)
    (error : Option String) (now : Nat) : TrackerState :=
  match alookup s.active request_id with
  | none => s
  | some context =>
    let active' := dictRemove s.active request_id
    let context := { context with status := status, end_time := some now,
                                  error := error }
    let s := bumpCounters { s with active := active' } status
    let completed' := dictInsert s.completed request_id context
    let completed'' :=
      if s.max_tracked_requests < completed'.length then
        let sortedReqs := completed'.insertionSort endKeyLE
        let victims :=
          (sortedReqs.take (completed'.length - s.max_tracked_requests)).map
            Prod.fst
        completed'.filter fun p => ¬ victims.contains p.1
      else completed'
    { s with completed := completed'' }

/-- `RequestTracker.increment_retry`: bump `retry_count` on an active context;
a no-op for ids not in the active dict. -/
def increment_retry (s : TrackerState) (request_id : String) : TrackerState :=
  match alookup s.active request_id with
  | none => s
  | some context =>
    let bumped : RequestContext :=
      { context with retry_count := context.retry_count + 1 }
    { s with active := dictInsert s.active request_id bumped }

/-- `RequestTracker._cleanup_old_requests`: drop completed entries whose
(truthy) `end_time` is older than `max_request_age`; the active dict is not
scanned. -/
def cleanup_old_requests (s : TrackerState) (current_time : Nat) : TrackerState :=
  { s with completed := s.completed.filter fun p =>
      match p.2.end_time with
      | some t =>
        if ¬ t = 0 ∧ s.max_request_age < current_time - t then false else true
      | none => true }

/-- How the caller's block inside `async with tracker.track_request(...)`
exits: a normal return, an `asyncio.TimeoutError`, any other `Exception`
(carrying `str(e)`), or a `BaseException` that is not an `Exception`
(such as `asyncio.CancelledError`). -/
inductive BlockExit where
  | normal
  | timeoutError
  | exc (msg : String)
  | baseExc
deriving Repr, DecidableEq

/-- The terminal status `track_request` records for each handled exit kind
(`"pending"` marks the base-exception path, where nothing is recorded). -/
def exitStatus : BlockExit → String
  | .normal => "success"
  | .timeoutError => "timeout"
  | .exc _ => "failed"
  | .baseExc => "pending"

/-- The error string `track_request` records for each exit kind. -/
def exitError : BlockExit → Option String
  | .normal => none
  | .timeoutError => some "Request timeout"
  | .exc msg => some msg
  | .baseExc => none

/-- `RequestTracker.track_request`: create a context, run the caller's block
(whose exit is `exitK`), then complete the context as `"success"` on a normal
return, `"timeout"` on `asyncio.TimeoutError`, `"failed"` (with `str(e)`) on
any other `Exception` — re-raising in the latter two cases.  A `BaseException`
that is not an `Exception` matches neither `except` clause, so no completion
happens and it propagates.  The second component is the re-raised exception,
`none` for a normal return. -/
def track_request (s : TrackerState) (request_id : String)
    (start_now end_now : Nat) (target_url : String) (proxy_url : Option String)
    (metadata : List (String × String)) (exitK : BlockExit) :
    TrackerState × Option BlockExit :=
  let created := create_context s request_id start_now target_url proxy_url metadata
  let s1 := created.1
  let context := created.2
  match exitK with
  | .normal =>
    (complete_request s1 context.request_id "success" none end_now, none)
  | .timeoutError =>
    (complete_request s1 context.request_id "timeout" (some "Request timeout")
      end_now, some .timeoutError)
  | .exc msg =>
    (complete_request s1 context.request_id "failed" (some msg) end_now,
      some (.exc msg))
  | .baseExc => (s1, some .baseExc)

/-- The context as it appears in the completed dict after a fresh
`create_context`/`complete_request` round trip. -/
def completedCtx (request_id : String) (t0 t1 : Nat) (target_url : String)
    (proxy_url : Option String) (metadata : List (String × String))
    (status : String) (error : Option String) : RequestContext :=
  { pendingCtx request_id t0 target_url proxy_url metadata with
    status := status, end_time := some t1, error := error }

theorem alookup_eq_none (m : List (String × RequestContext)) (k : String) :
    alookup m k = none ↔ k ∉ m.map Prod.fst := by
  induction m with
  | nil => simp [alookup]
  | cons p ps ih =>
    simp only [alookup, List.map_cons, List.mem_cons]
    by_cases h : p.1 = k
    · simp [h]
    · rw [if_neg h, ih]
      constructor
      · intro hn hmem
        rcases hmem with h1 | h2
        · exact h h1.symm
        · exact hn h2
      · exact fun hn h2 => hn (Or.inr h2)

theorem contains_keys_iff (m : List (String × RequestContext)) (k : String) :
    (m.map Prod.fst).contains k = true ↔ k ∈ m.map Prod.fst :=
  List.elem_iff

theorem alookup_append (m m' : List (String × RequestContext)) (k : String) :
    alookup (m ++ m') k =
      match alookup m k with
      | some v => some v
      | none => alookup m' k := by
  induction m with
  | nil => simp [alookup]
  | cons p ps ih =>
    by_cases h : p.1 = k <;> simp [alookup, h, ih]

theorem alookup_dictInsert_self (m : List (String × RequestContext))
    (k : String) (v : RequestContext) : alookup (dictInsert m k v) k = some v := by
  unfold dictInsert
  by_cases h : k ∈ m.map Prod.fst
  · rw [if_pos ((contains_keys_iff m k).mpr h)]
    induction m with
    | nil => simp at h
    | cons p ps ih =>
      by_cases hp : p.1 = k
      · simp [alookup, hp]
      · simp only [List.map_cons, List.mem_cons] at h
        rcases h with h | h
        · exact absurd h.symm hp
        · simpa [alookup, hp] using ih h
  · rw [if_neg (fun hc => h ((contains_keys_iff m k).mp hc)), alookup_append]
    have hnone : alookup m k = none := (alookup_eq_none m k).mpr h
    simp [hnone, alookup]

theorem dictInsert_fresh (m : List (String × RequestContext)) (k : String)
    (v : RequestContext) (h : alookup m k = none) :
    dictInsert m k v = m ++ [(k, v)] := by
  rw [alookup_eq_none] at h
  unfold dictInsert
  rw [if_neg (fun hc => h ((contains_keys_iff m k).mp hc))]

theorem filter_key_ne_eq_self (m : List (String × RequestContext)) (k : String)
    (h : k ∉ m.map Prod.fst) :
    (m.filter fun p => ¬ p.1 = k) = m := by
  induction m with
  | nil => rfl
  | cons p ps ih =>
    simp only [List.map_cons, List.mem_cons, not_or] at h
    have hp : ¬ p.1 = k := fun hpk => h.1 hpk.symm
    rw [List.filter_cons_of_pos (by simpa using hp), ih h.2]

theorem dictRemove_append_fresh (m : List (String × RequestContext)) (k : String)
    (v : RequestContext) (h : alookup m k = none) :
    dictRemove (m ++ [(k, v)]) k = m := by
  rw [alookup_eq_none] at h
  unfold dictRemove
  rw [List.filter_append, filter_key_ne_eq_self m k h]
  simp

theorem bumpCounters_active (s : TrackerState) (st : String) :
    (bumpCounters s st).active = s.active := by
  unfold bumpCounters
  split_ifs <;> rfl

theorem bumpCounters_completed (s : TrackerState) (st : String) :
    (bumpCounters s st).completed = s.completed := by
  unfold bumpCounters
  split_ifs <;> rfl

theorem bumpCounters_max_tracked (s : TrackerState) (st : String) :
    (bumpCounters s st).max_tracked_requests = s.max_tracked_requests := by
  unfold bumpCounters
  split_ifs <;> rfl

theorem bumpCounters_total (s : TrackerState) (st : String) :
    (bumpCounters s st).total_requests = s.total_requests := by
  unfold bumpCounters
  split_ifs <;> rfl

/-- `bumpCounters` commutes with updates of the non-counter fields. -/
theorem bumpCounters_set (s : TrackerState) (st : String)
    (A X : List (String × RequestContext)) (T : Nat) :
    bumpCounters { s with active := A, completed := X, total_requests := T } st
      = { bumpCounters s st with
          active := A
          completed := X
          total_requests := T } := by
  unfold bumpCounters
  split_ifs <;> rfl

/-- After a fresh `create_context` followed by `complete_request` on the same
id (with room below the cap, so no eviction fires), the tracker state is the
original one with the retired context appended to the completed dict, the
total counter bumped at creation, and the terminal counter bumped at
completion. -/
theorem create_then_complete (s : TrackerState) (id : String) (t0 t1 : Nat)
    (target : String) (proxy : Option String) (md : List (String × String))
    (st : String) (err : Option String)
    (hA : alookup s.active id = none) (hC : alookup s.completed id = none)
    (hroom : s.completed.length < s.max_tracked_requests) :
    complete_request (create_context s id t0 target proxy md).1 id st err t1 =
      bumpCounters
        { s with
          completed :=
            s.completed ++ [(id, completedCtx id t0 t1 target proxy md st err)]
          total_requests := s.total_requests + 1 } st := by
  have hins := dictInsert_fresh s.active id (pendingCtx id t0 target proxy md) hA
  have hlook :
      alookup (s.active ++ [(id, pendingCtx id t0 target proxy md)]) id
        = some (pendingCtx id t0 target proxy md) := by
    rw [alookup_append, hA]
    simp [alookup]
  have hrem := dictRemove_append_fresh s.active id
    (pendingCtx id t0 target proxy md) hA
  have hinsC := dictInsert_fresh s.completed id
    (completedCtx id t0 t1 target proxy md st err) hC
  have hlen : ¬ s.max_tracked_requests <
      (s.completed ++ [(id, completedCtx id t0 t1 target proxy md st err)]).length := by
    rw [List.length_append, List.length_singleton]
    omega
  simp only [completedCtx, pendingCtx] at hinsC hlen ⊢
  unfold create_context complete_request
  simp only [pendingCtx] at hins hlook hrem
  simp only [hins, hlook, hrem, pendingCtx, bumpCounters_completed,
    bumpCounters_max_tracked]
  rw [hinsC, if_neg hlen]
  unfold bumpCounters
  split_ifs <;> rfl

theorem alookup_append_fresh (m : List (String × RequestContext)) (k : String)
    (v : RequestContext) (h : alookup m k = none) :
    alookup (m ++ [(k, v)]) k = some v := by
  rw [alookup_append, h]
  simp [alookup]

/-- C1: For every block run under `track_request` (on a fresh id, below the
completed-set cap), `complete_request` retires the context exactly once on
every exit path handled by the context manager: a normal return completes it
as `"success"`, an `asyncio.TimeoutError` as `"timeout"`, and any other raised
`Exception` as `"failed"` with the error's message recorded — the id leaves
the active dict, appears in the completed dict with the matching terminal
status and error, exactly one terminal counter is incremented, and the
exception is re-raised to the caller. -/
theorem track_request_always_retires
    (s : TrackerState) (id : String) (t0 t1 : Nat) (target : String)
    (proxy : Option String) (md : List (String × String)) (exitK : BlockExit)
    (hA : alookup s.active id = none) (hC : alookup s.completed id = none)
    (hroom : s.completed.length < s.max_tracked_requests)
    (hnb : exitK ≠ BlockExit.baseExc) :
    alookup (track_request s id t0 t1 target proxy md exitK).1.active id
      = none ∧
    alookup (track_request s id t0 t1 target proxy md exitK).1.completed id
      = some (completedCtx id t0 t1 target proxy md (exitStatus exitK)
          (exitError exitK)) ∧
    (track_request s id t0 t1 target proxy md exitK).1.successful_requests
      = s.successful_requests
        + (if exitK = BlockExit.normal then 1 else 0) ∧
    (track_request s id t0 t1 target proxy md exitK).1.timeout_requests
      = s.timeout_requests
        + (if exitK = BlockExit.timeoutError then 1 else 0) ∧
    (track_request s id t0 t1 target proxy md exitK).1.failed_requests
      = s.failed_requests
        + (match exitK with | BlockExit.exc _ => 1 | _ => 0) ∧
    (track_request s id t0 t1 target proxy md exitK).1.total_requests
      = s.total_requests + 1 ∧
    (track_request s id t0 t1 target proxy md exitK).2
      = (match exitK with | BlockExit.normal => none | e => some e) := by
  cases exitK with
  | baseExc => exact absurd rfl hnb
  | normal =>
    have key := create_then_complete s id t0 t1 target proxy md "success" none
      hA hC hroom
    have hboth := alookup_append_fresh s.completed id
      (completedCtx id t0 t1 target proxy md "success" none) hC
    rw [show track_request s id t0 t1 target proxy md BlockExit.normal
        = (complete_request (create_context s id t0 target proxy md).1 id
            "success" none t1, none) from rfl]
    dsimp only
    rw [key]
    have hbump : bumpCounters
        { s with
          completed :=
            s.completed ++ [(id, completedCtx id t0 t1 target proxy md
              "success" none)]
          total_requests := s.total_requests + 1 } "success"
      = { s with
          completed :=
            s.completed ++ [(id, completedCtx id t0 t1 target proxy md
              "success" none)]
          total_requests := s.total_requests + 1
          successful_requests := s.successful_requests + 1 } := by
      unfold bumpCounters
      rw [if_pos rfl]
    rw [hbump]
    exact ⟨hA, hboth, rfl, rfl, rfl, rfl, rfl⟩
  | timeoutError =>
    have key := create_then_complete s id t0 t1 target proxy md "timeout"
      (some "Request timeout") hA hC hroom
    have hboth := alookup_append_fresh s.completed id
      (completedCtx id t0 t1 target proxy md "timeout"
        (some "Request timeout")) hC
    rw [show track_request s id t0 t1 target proxy md BlockExit.timeoutError
        = (complete_request (create_context s id t0 target proxy md).1 id
            "timeout" (some "Request timeout") t1,
            some BlockExit.timeoutError) from rfl]
    dsimp only
    rw [key]
    have hbump : bumpCounters
        { s with
          completed :=
            s.completed ++ [(id, completedCtx id t0 t1 target proxy md
              "timeout" (some "Request timeout"))]
          total_requests := s.total_requests + 1 } "timeout"
      = { s with
          completed :=
            s.completed ++ [(id, completedCtx id t0 t1 target proxy md
              "timeout" (some "Request timeout"))]
          total_requests := s.total_requests + 1
          timeout_requests := s.timeout_requests + 1 } := by
      unfold bumpCounters
      rw [if_neg (by decide), if_neg (by decide), if_pos rfl]
    rw [hbump]
    exact ⟨hA, hboth, rfl, rfl, rfl, rfl, rfl⟩
  | exc msg =>
    have key := create_then_complete s id t0 t1 target proxy md "failed"
      (some msg) hA hC hroom
    have hboth := alookup_append_fresh s.completed id
      (completedCtx id t0 t1 target proxy md "failed" (some msg)) hC
    rw [show track_request s id t0 t1 target proxy md (BlockExit.exc msg)
        = (complete_request (create_context s id t0 target proxy md).1 id
            "failed" (some msg) t1, some (BlockExit.exc msg)) from rfl]
    dsimp only
    rw [key]
    have hbump : bumpCounters
        { s with
          completed :=
            s.completed ++ [(id, completedCtx id t0 t1 target proxy md
              "failed" (some msg))]
          total_requests := s.total_requests + 1 } "failed"
      = { s with
          completed :=
            s.completed ++ [(id, completedCtx id t0 t1 target proxy md
              "failed" (some msg))]
          total_requests := s.total_requests + 1
          failed_requests := s.failed_requests + 1 } := by
      unfold bumpCounters
      rw [if_neg (by decide), if_pos rfl]
    rw [hbump]
    exact ⟨hA, hboth, rfl, rfl, rfl, rfl, rfl⟩

/-- Witness for C1 on an empty tracker, a generic-exception exit. -/
theorem track_request_always_retires_witness :
    alookup (track_request (initTracker 10000 300 3600) "req_a" 0 7 "urlx"
      none [] (BlockExit.exc "boom")).1.completed "req_a"
      = some (completedCtx "req_a" 0 7 "urlx" none [] "failed" (some "boom"))
    ∧ (track_request (initTracker 10000 300 3600) "req_a" 0 7 "urlx"
        none [] (BlockExit.exc "boom")).1.failed_requests = 1 :=
  ⟨(track_request_always_retires (initTracker 10000 300 3600) "req_a" 0 7
      "urlx" none [] (BlockExit.exc "boom") rfl rfl (by decide)
      (by decide)).2.1,
    by
      have h := (track_request_always_retires (initTracker 10000 300 3600)
        "req_a" 0 7 "urlx" none [] (BlockExit.exc "boom") rfl rfl (by decide)
        (by decide)).2.2.2.2.1
      simpa using h⟩

/-- C10: If the block inside `track_request` exits via a `BaseException` that
is not an `Exception` (for example `asyncio.CancelledError`), neither `except`
clause matches, so `complete_request` is never called: the context stays in
the active dict with status `"pending"` and no end time, is absent from the
completed dict, no terminal counter changes, and the cleanup sweep — which
filters only the completed dict — leaves the active dict (and hence this
context) untouched at every time. -/
theorem track_request_base_exception_leaks
    (s : TrackerState) (id : String) (t0 t1 : Nat) (target : String)
    (proxy : Option String) (md : List (String × String))
    (hA : alookup s.active id = none) :
    alookup (track_request s id t0 t1 target proxy md BlockExit.baseExc).1.active
      id = some (pendingCtx id t0 target proxy md) ∧
    (pendingCtx id t0 target proxy md).status = "pending" ∧
    (pendingCtx id t0 target proxy md).end_time = none ∧
    (track_request s id t0 t1 target proxy md
      BlockExit.baseExc).1.completed = s.completed ∧
    (track_request s id t0 t1 target proxy md
      BlockExit.baseExc).1.successful_requests = s.successful_requests ∧
    (track_request s id t0 t1 target proxy md
      BlockExit.baseExc).1.failed_requests = s.failed_requests ∧
    (track_request s id t0 t1 target proxy md
      BlockExit.baseExc).1.timeout_requests = s.timeout_requests ∧
    (∀ now : Nat,
      (cleanup_old_requests
        (track_request s id t0 t1 target proxy md BlockExit.baseExc).1
        now).active
      = (track_request s id t0 t1 target proxy md BlockExit.baseExc).1.active) ∧
    (track_request s id t0 t1 target proxy md BlockExit.baseExc).2
      = some BlockExit.baseExc := by
  have hins := dictInsert_fresh s.active id (pendingCtx id t0 target proxy md) hA
  rw [show track_request s id t0 t1 target proxy md BlockExit.baseExc
      = ((create_context s id t0 target proxy md).1, some BlockExit.baseExc)
      from rfl]
  dsimp only
  unfold create_context
  dsimp only
  rw [hins]
  refine ⟨alookup_append_fresh s.active id _ hA, rfl, rfl, rfl, rfl, rfl, rfl,
    fun now => rfl, rfl⟩

/-- Witness for C10 on an empty tracker. -/
theorem track_request_base_exception_leaks_witness :
    alookup (track_request (initTracker 10000 300 3600) "req_b" 0 7 "urlx"
      none [] BlockExit.baseExc).1.active "req_b"
      = some (pendingCtx "req_b" 0 "urlx" none []) ∧
    (track_request (initTracker 10000 300 3600) "req_b" 0 7 "urlx"
      none [] BlockExit.baseExc).1.completed = [] :=
  ⟨(track_request_base_exception_leaks (initTracker 10000 300 3600) "req_b"
      0 7 "urlx" none [] rfl).1,
    (track_request_base_exception_leaks (initTracker 10000 300 3600) "req_b"
      0 7 "urlx" none [] rfl).2.2.2.1⟩

/-- A concrete run used for the C2 analysis: one context is created. -/
def seqState1 : TrackerState :=
  (create_context (initTracker 10000 300 3600) "req_a" 0 "urlx" none []).1

/-- The documented bookkeeping step: `update_context` with terminal status
`"failed"` at time 5. -/
def seqState2 : TrackerState :=
  update_context seqState1 "req_a" (some "failed") none none 5

/-- The final `complete_request` with status `"failed"` at time 9. -/
def seqState3 : TrackerState :=
  complete_request seqState2 "req_a" "failed" none 9

/-- Counterexample to C2: in the documented sequence — `update_context` with a
terminal status for bookkeeping, then `complete_request` — the failed counter
is incremented at both calls (ending at 2, not 1), and `end_time` is stamped
at the update (5) and then overwritten at completion (9), so it is neither
updated exactly once per id nor set exactly once. -/
theorem update_then_complete_double_counts :
    seqState2.failed_requests = 1 ∧
    (alookup seqState2.active "req_a").map RequestContext.end_time
      = some (some 5) ∧
    seqState3.failed_requests = 2 ∧
    (alookup seqState3.completed "req_a").map RequestContext.end_time
      = some (some 9) := by
  refine ⟨rfl, rfl, rfl, rfl⟩

/-- The failed counter after a `complete_request` with status `"failed"` on an
active id is one more than before. -/
theorem complete_request_failed_count (s : TrackerState) (id : String)
    (err : Option String) (now : Nat) (c : RequestContext)
    (h : alookup s.active id = some c) :
    (complete_request s id "failed" err now).failed_requests
      = s.failed_requests + 1 := by
  unfold complete_request
  simp only [h]
  unfold bumpCounters
  rw [if_neg (by decide), if_pos rfl]

/-- C2 (amended): `complete_request` moves an active context to the completed
dict, unconditionally overwriting `end_time`/`status`/`error`, and bumps the
matching terminal counter once; on an id no longer active it is a no-op, so a
repeated `complete_request` counts once.  The counters are however not updated
exactly once per id under every sequence: a terminal-status `update_context`
already bumps the counter and stamps `end_time` while leaving the context
active, so the documented update-then-complete sequence bumps the counter
twice for that id and stamps `end_time` at both calls, completion overwriting
the earlier stamp. -/
theorem complete_request_amended :
    (∀ (s : TrackerState) (id st : String) (err : Option String) (now : Nat)
        (c : RequestContext),
      alookup s.active id = some c → alookup s.completed id = none →
      s.completed.length < s.max_tracked_requests →
      complete_request s id st err now
        = bumpCounters
            { s with
              active := dictRemove s.active id
              completed := s.completed
                ++ [(id, { c with
                           status := st
                           end_time := some now
                           error := err })] } st)
    ∧ (∀ (s : TrackerState) (id st : String) (err : Option String) (now : Nat),
        alookup s.active id = none → complete_request s id st err now = s)
    ∧ (∀ (s : TrackerState) (id : String) (t1 t2 : Nat) (c : RequestContext),
        alookup s.active id = some c →
        (update_context s id (some "failed") none none t1).failed_requests
          = s.failed_requests + 1 ∧
        (alookup (update_context s id (some "failed") none none t1).active
          id).map RequestContext.end_time = some (some t1) ∧
        (complete_request (update_context s id (some "failed") none none t1)
            id "failed" none t2).failed_requests
          = s.failed_requests + 2) := by
  refine ⟨?_, ?_, ?_⟩
  · intro s id st err now c hA hC hroom
    have hinsC := dictInsert_fresh s.completed id
      ({ c with status := st, end_time := some now, error := err }) hC
    have hlen : ¬ s.max_tracked_requests <
        (s.completed ++ [(id, { c with
                                status := st
                                end_time := some now
                                error := err })]).length := by
      rw [List.length_append, List.length_singleton]
      omega
    unfold complete_request
    simp only [hA, hinsC, bumpCounters_completed, bumpCounters_max_tracked]
    rw [if_neg hlen]
    unfold bumpCounters
    split_ifs <;> rfl
  · intro s id st err now hA
    unfold complete_request
    simp only [hA]
  · intro s id t1 t2 c hA
    have hupd : update_context s id (some "failed") none none t1
        = bumpCounters { s with active := dictInsert s.active id { c with status := "failed", end_time := some t1 } } "failed" := by
      unfold update_context
      simp only [hA]
      rfl
    have hbump : ∀ (s' : TrackerState), bumpCounters s' "failed"
        = { s' with failed_requests := s'.failed_requests + 1 } := by
      intro s'
      unfold bumpCounters
      rw [if_neg (by decide), if_pos rfl]
    refine ⟨?_, ?_, ?_⟩
    · rw [hupd, hbump]
    · rw [hupd, hbump]
      dsimp only
      rw [alookup_dictInsert_self]
      rfl
    · rw [hupd, hbump]
      exact complete_request_failed_count _ id none t2
        ({ c with status := "failed", end_time := some t1 })
        (alookup_dictInsert_self s.active id _)

/-- Tuples of an association list with nodup keys are determined by their key. -/
theorem key_nodup_inj (l : List (String × RequestContext))
    (hnd : (l.map Prod.fst).Nodup) {p q : String × RequestContext}
    (hp : p ∈ l) (hq : q ∈ l) (hk : p.1 = q.1) : p = q := by
  induction l with
  | nil => cases hp
  | cons a ls ih =>
    rw [List.map_cons, List.nodup_cons] at hnd
    rcases List.mem_cons.mp hp with hp1 | hp2 <;>
      rcases List.mem_cons.mp hq with hq1 | hq2
    · rw [hp1, hq1]
    · have h1 : a.1 = q.1 := by rw [← hp1]; exact hk
      exact absurd (by rw [h1]; exact List.mem_map_of_mem Prod.fst hq2) hnd.1
    · have h1 : a.1 = p.1 := by rw [← hq1]; exact hk.symm
      exact absurd (by rw [h1]; exact List.mem_map_of_mem Prod.fst hp2) hnd.1
    · exact ih hnd.2 hp2 hq2

/-- Removing the (unique) tuple with a given key from an association list with
nodup keys shortens it by exactly one. -/
theorem length_filter_key_ne (l : List (String × RequestContext)) (k : String)
    (hk : k ∈ l.map Prod.fst) (hnd : (l.map Prod.fst).Nodup) :
    (l.filter fun p => ¬ p.1 = k).length + 1 = l.length := by
  induction l with
  | nil => cases hk
  | cons a ls ih =>
    rw [List.map_cons, List.nodup_cons] at hnd
    by_cases ha : a.1 = k
    · have hnotin : k ∉ ls.map Prod.fst := ha ▸ hnd.1
      rw [List.filter_cons_of_neg (by simp [ha]),
        filter_key_ne_eq_self ls k hnotin, List.length_cons]
    · have hk' : k ∈ ls.map Prod.fst := by
        rw [List.map_cons, List.mem_cons] at hk
        rcases hk with h1 | h2
        · exact absurd h1.symm ha
        · exact h2
      rw [List.filter_cons_of_pos (by simpa using ha), List.length_cons,
        List.length_cons, ih hk' hnd.2]

/-- The head of the stable sort by `endKey` is minimal among all entries. -/
theorem sortedHead_min (l : List (String × RequestContext))
    (w : String × RequestContext) (rest : List (String × RequestContext))
    (h : l.insertionSort endKeyLE = w :: rest) :
    ∀ p ∈ l, endKey w ≤ endKey p := by
  intro p hp
  have hmem : p ∈ l.insertionSort endKeyLE :=
    (List.mem_insertionSort endKeyLE).mpr hp
  rw [h] at hmem
  rcases List.mem_cons.mp hmem with h1 | h2
  · rw [h1]
  · have hs := List.sorted_insertionSort endKeyLE l
    rw [h] at hs
    exact List.rel_of_sorted_cons hs p h2

/-- C5: When a completion pushes the completed dict past
`max_tracked_requests` (the dict being exactly full before the call, as the
synchronous valve maintains), `complete_request` evicts during that same call:
exactly `max_tracked_requests` entries remain, the evicted entry is an
oldest-by-`endTime` one, and every other entry survives. -/
theorem complete_request_capacity_eviction
    (s : TrackerState) (id st : String) (err : Option String) (now : Nat)
    (c : RequestContext)
    (hA : alookup s.active id = some c)
    (hC : alookup s.completed id = none)
    (hnodup : (s.completed.map Prod.fst).Nodup)
    (hfull : s.completed.length = s.max_tracked_requests)
    (hpos : 0 < s.max_tracked_requests) :
    (complete_request s id st err now).completed.length
        = s.max_tracked_requests
    ∧ ∃ v ∈ s.completed ++ [(id, { c with status := st, end_time := some now, error := err })],
        v.1 ∉ ((complete_request s id st err now).completed.map Prod.fst)
        ∧ (∀ p ∈ s.completed ++ [(id, { c with status := st, end_time := some now, error := err })], endKey v ≤ endKey p)
        ∧ ∀ p ∈ s.completed ++ [(id, { c with status := st, end_time := some now, error := err })],
            p = v ∨ p ∈ (complete_request s id st err now).completed := by
  have hinsC := dictInsert_fresh s.completed id
    ({ c with status := st, end_time := some now, error := err }) hC
  have hlen : s.max_tracked_requests <
      (s.completed ++ [(id, { c with status := st, end_time := some now, error := err })]).length := by
    rw [List.length_append, List.length_singleton, hfull]
    omega
  have hlen1 :
      (s.completed ++ [(id, { c with status := st, end_time := some now, error := err })]).length
        - s.max_tracked_requests = 1 := by
    rw [List.length_append, List.length_singleton, hfull]
    omega
  have hidnot : id ∉ s.completed.map Prod.fst := (alookup_eq_none _ _).mp hC
  have hnodup' :
      ((s.completed ++ [(id, { c with status := st, end_time := some now, error := err })]).map
        Prod.fst).Nodup := by
    rw [List.map_append]
    simp [List.nodup_append, hnodup, hidnot]
  have hstate : (complete_request s id st err now).completed
      = (s.completed ++ [(id, { c with status := st, end_time := some now, error := err })]).filter
          (fun p => ¬ ((((s.completed ++ [(id, { c with status := st, end_time := some now, error := err })]).insertionSort
            endKeyLE).take 1).map Prod.fst).contains p.1) := by
    unfold complete_request
    simp only [hA, bumpCounters_completed, bumpCounters_max_tracked]
    rw [hinsC, if_pos hlen, hlen1]
  rcases hs : (s.completed ++ [(id, { c with status := st, end_time := some now, error := err })]).insertionSort
      endKeyLE with _ | ⟨w, rest⟩
  · exfalso
    have := List.length_insertionSort endKeyLE
      (s.completed ++ [(id, { c with status := st, end_time := some now, error := err })])
    rw [hs, List.length_nil, List.length_append, List.length_singleton] at this
    omega
  have hw : w ∈ s.completed ++ [(id, { c with status := st, end_time := some now, error := err })] := by
    have : w ∈ (s.completed ++ [(id, { c with status := st, end_time := some now, error := err })]).insertionSort
        endKeyLE := by
      rw [hs]
      exact List.mem_cons_self w rest
    exact (List.mem_insertionSort endKeyLE).mp this
  have hstate2 : (complete_request s id st err now).completed
      = (s.completed ++ [(id, { c with status := st, end_time := some now, error := err })]).filter
          (fun p => ¬ p.1 = w.1) := by
    rw [hstate, hs]
    apply List.filter_congr
    intro p _
    by_cases h : p.1 = w.1 <;> simp [h]
  refine ⟨?_, w, hw, ?_, sortedHead_min _ w rest hs, ?_⟩
  · rw [hstate2]
    have hkey := length_filter_key_ne
      (s.completed ++ [(id, { c with status := st, end_time := some now, error := err })]) w.1
      (List.mem_map_of_mem Prod.fst hw) hnodup'
    rw [List.length_append, List.length_singleton, hfull] at hkey
    omega
  · rw [hstate2]
    intro hmem
    rcases List.mem_map.mp hmem with ⟨p, hpmem, hpfst⟩
    have := (List.mem_filter.mp hpmem).2
    simp only [decide_not, Bool.not_eq_true', decide_eq_false_iff_not] at this
    exact this hpfst
  · intro p hp
    by_cases hpk : p.1 = w.1
    · exact Or.inl (key_nodup_inj _ hnodup' hp hw hpk)
    · refine Or.inr ?_
      rw [hstate2]
      exact List.mem_filter.mpr ⟨hp, by simpa using hpk⟩

/-- A tracker capped at two completed entries, driven to capacity: `req_a`
completed at time 10, `req_b` at time 20, `req_c` still active. -/
def capState : TrackerState :=
  (create_context
    (complete_request
      ((create_context
        (complete_request
          ((create_context (initTracker 2 300 3600) "req_a" 1 "urlx" none []).1)
          "req_a" "success" none 10)
        "req_b" 2 "urlx" none []).1)
      "req_b" "success" none 20)
    "req_c" 3 "urlx" none []).1

/-- Witness for C5: completing `req_c` at time 30 in the full two-entry
tracker leaves exactly two completed entries, evicting `req_a` — the oldest by
end time — while `req_b` survives. -/
theorem complete_request_capacity_eviction_witness :
    (complete_request capState "req_c" "success" none 30).completed.length = 2
    ∧ alookup (complete_request capState "req_c" "success" none 30).completed
        "req_a" = none
    ∧ (alookup (complete_request capState "req_c" "success" none 30).completed
        "req_b").isSome = true
    ∧ (alookup (complete_request capState "req_c" "success" none 30).completed
        "req_c").isSome = true :=
  ⟨(complete_request_capacity_eviction capState "req_c" "success" none 30
      (pendingCtx "req_c" 3 "urlx" none []) rfl rfl (by decide) rfl
      (by decide)).1,
    by decide, by decide, by decide⟩

/-- Witness for the amended C2: on the concrete update-then-complete sequence
the failed counter ends at 2. -/
theorem complete_request_amended_witness :
    (complete_request seqState2 "req_a" "failed" none 9).failed_requests = 2 := by
  have h := (complete_request_amended).2.2 seqState1 "req_a" 5 9
    (pendingCtx "req_a" 0 "urlx" none []) rfl
  exact h.2.2

end RequestTracker

namespace HttpClient

open RequestTracker

/-- Outcome of one transport attempt inside `_make_request_with_retry`: a
response accepted by `raise_for_status`, an `httpx.HTTPStatusError` carrying
the response status code, an `httpx.TimeoutException`/`httpx.ConnectError`
(all of which are ordinary `Exception`s, not `asyncio.TimeoutError`), or any
other exception. -/
inductive AttemptResult where
  | success
  | httpStatus (code : Nat)
  | netError (msg : String)
  | otherExc (msg : String)
deriving Repr, DecidableEq

/-- `ProxiedHTTPClient` configuration (`max_retries`, `retry_delay`) together
with the FlareProx manager's `enabled` flag. -/
structure ClientConfig where
  max_retries : Nat
  retry_delay : Nat
  flareprox_enabled : Bool
deriving Repr, DecidableEq

/-- Observable actions on the retry loop's failure path, in program order: a
pool rotation `proxies.rotate(-1)` and a backoff sleep `asyncio.sleep(d)`. -/
inductive Ev where
  | rotate (offset : Int)
  | sleep (delay : Nat)
deriving Repr, DecidableEq

/-- What `_make_request_with_retry` finally raises: the last attempt's error,
or the generic `httpx.HTTPError` raised when no error object exists. -/
inductive ReqError where
  | fromAttempt (r : AttemptResult)
  | allRetriesFailed
deriving Repr, DecidableEq

/-- Result of a whole `_make_request_with_retry` run: final tracker state, the
ordered failure-path events, the number of loop iterations entered, and either
the index of the successful attempt or the raised error. -/
structure RunOut where
  state : TrackerState
  events : List Ev
  attempts : Nat
  result : Except ReqError Nat

/-- Stand-in for `str(e)` of the exception behind a failed attempt (the exact
text of an `httpx` message is opaque; only its identity matters here). -/
def errMsg : AttemptResult → String
  | .success => ""
  | .httpStatus code => "HTTP error " ++ toString code
  | .netError msg => msg
  | .otherExc msg => msg

/-- How `track_request` sees an attempt: a success leaves the block normally;
every failure raises an ordinary `Exception` (none of `httpx`'s exceptions is
an `asyncio.TimeoutError`), so the tracked context completes as `"failed"`. -/
def attemptExit : AttemptResult → BlockExit
  | .success => .normal
  | r => .exc (errMsg r)

/-- Did the attempt fail (raise an exception out of the tracked block)? -/
def attemptFails : AttemptResult → Bool
  | .success => false
  | _ => true

/-- Is this an `HTTPStatusError` with a 4xx code (the non-retriable branch)? -/
def is4xx : AttemptResult → Bool
  | .httpStatus code => 400 ≤ code ∧ code < 500
  | _ => false

/-- Does this failure rotate the pool?  `HTTPStatusError`s outside 400-499
(reached only after the 4xx re-raise) and network errors do; other exceptions
fall through to the backoff with no rotation. -/
def rotatesOn : AttemptResult → Bool
  | .httpStatus code => ¬ (400 ≤ code ∧ code < 500)
  | .netError _ => true
  | _ => false

/-- The metadata dict `{"method": method, "attempt": attempt + 1}` passed to
`track_request` for one attempt. -/
def attemptMeta (method : String) (attempt : Nat) : List (String × String) :=
  [("method", method), ("attempt", toString (attempt + 1))]

/-- The `proxy_url` component of `_get_proxied_url`: the FlareProx URL when
the manager is enabled, `None` otherwise. -/
def proxyUrlOf (cfg : ClientConfig) (proxyFor : String → String)
    (url : String) : Option String :=
  if cfg.flareprox_enabled then some (proxyFor url) else none

/-- The tracker-state effect of one attempt: the `track_request` scope that
wraps the HTTP call, exiting according to the transport's outcome. -/
def attemptStep (cfg : ClientConfig) (transport : Nat → AttemptResult)
    (ids : Nat → String) (tS tE : Nat → Nat) (method url : String)
    (proxyFor : String → String) (i : Nat) (s : TrackerState) : TrackerState :=
  (track_request s (ids i) (tS i) (tE i) url (proxyUrlOf cfg proxyFor url)
    (attemptMeta method i) (attemptExit (transport i))).1

/-- Tracker state after attempts `a, a+1, ..., a+n-1` have each run under
their tracked scope. -/
def runStates (cfg : ClientConfig) (transport : Nat → AttemptResult)
    (ids : Nat → String) (tS tE : Nat → Nat) (method url : String)
    (proxyFor : String → String) : Nat → Nat → TrackerState → TrackerState
  | _, 0, s => s
  | a, n + 1, s =>
    runStates cfg transport ids tS tE method url proxyFor (a + 1) n
      (attemptStep cfg transport ids tS tE method url proxyFor a s)

/-- The failure-path events of one failed (non-4xx) attempt `i`: a rotation
when the pool is enabled and the failure class rotates, then — unless `i` is
the last attempt — a sleep of `retry_delay * 2 ^ i`. -/
def evFor (cfg : ClientConfig) (transport : Nat → AttemptResult) (i : Nat) :
    List Ev :=
  (if cfg.flareprox_enabled && rotatesOn (transport i) then [Ev.rotate (-1)]
    else [])
  ++ (if i < cfg.max_retries - 1 then [Ev.sleep (cfg.retry_delay * 2 ^ i)]
    else [])

/-- The concatenated failure-path events of attempts `a, ..., a+n-1`. -/
def failEventsFrom (cfg : ClientConfig) (transport : Nat → AttemptResult) :
    Nat → Nat → List Ev
  | _, 0 => []
  | a, n + 1 =>
    evFor cfg transport a ++ failEventsFrom cfg transport (a + 1) n

/-- The retry loop of `_make_request_with_retry`, from attempt index
`attempt` with `fuel` iterations left, carrying the tracker state, the events
so far, the iteration count, and `last_error`. -/
def runFrom (cfg : ClientConfig) (transport : Nat → AttemptResult)
    (ids : Nat → String) (tS tE : Nat → Nat) (method url : String)
    (proxyFor : String → String) :
    Nat → Nat → TrackerState → List Ev → Nat → Option AttemptResult → RunOut
  | 0, _, s, evs, att, lastErr =>
    ⟨s, evs, att, .error (match lastErr with
      | some e => .fromAttempt e
      | none => .allRetriesFailed)⟩
  | fuel + 1, attempt, s, evs, att, _ =>
    let s' := attemptStep cfg transport ids tS tE method url proxyFor attempt s
    match transport attempt with
    | .success => ⟨s', evs, att + 1, .ok attempt⟩
    | .httpStatus code =>
      if 400 ≤ code ∧ code < 500 then
        ⟨s', evs, att + 1, .error (.fromAttempt (.httpStatus code))⟩
      else
        let evs1 := if cfg.flareprox_enabled then evs ++ [Ev.rotate (-1)]
          else evs
        let evs2 := if attempt < cfg.max_retries - 1 then
            evs1 ++ [Ev.sleep (cfg.retry_delay * 2 ^ attempt)] else evs1
        runFrom cfg transport ids tS tE method url proxyFor fuel (attempt + 1)
          s' evs2 (att + 1) (some (.httpStatus code))
    | .netError msg =>
      let evs1 := if cfg.flareprox_enabled then evs ++ [Ev.rotate (-1)]
        else evs
      let evs2 := if attempt < cfg.max_retries - 1 then
          evs1 ++ [Ev.sleep (cfg.retry_delay * 2 ^ attempt)] else evs1
      runFrom cfg transport ids tS tE method url proxyFor fuel (attempt + 1)
        s' evs2 (att + 1) (some (.netError msg))
    | .otherExc msg =>
      let evs2 := if attempt < cfg.max_retries - 1 then
          evs ++ [Ev.sleep (cfg.retry_delay * 2 ^ attempt)] else evs
      runFrom cfg transport ids tS tE method url proxyFor fuel (attempt + 1)
        s' evs2 (att + 1) (some (.otherExc msg))

/-- `ProxiedHTTPClient._make_request_with_retry`: the loop
`for attempt in range(self.max_retries)` starting from a tracker state. -/
def make_request_with_retry (cfg : ClientConfig)
    (transport : Nat → AttemptResult) (ids : Nat → String) (tS tE : Nat → Nat)
    (method url : String) (proxyFor : String → String) (s0 : TrackerState) :
    RunOut :=
  runFrom cfg transport ids tS tE method url proxyFor cfg.max_retries 0 s0 []
    0 none

/-- The loop enters at most `fuel` further iterations. -/
theorem runFrom_attempts_le (cfg : ClientConfig)
    (transport : Nat → AttemptResult) (ids : Nat → String) (tS tE : Nat → Nat)
    (method url : String) (proxyFor : String → String) :
    ∀ (fuel a : Nat) (s : TrackerState) (evs : List Ev) (att : Nat)
      (le : Option AttemptResult),
    (runFrom cfg transport ids tS tE method url proxyFor fuel a s evs att
      le).attempts ≤ att + fuel := by
  intro fuel
  induction fuel with
  | zero =>
    intro a s evs att le
    simp [runFrom]
  | succ n ih =>
    intro a s evs att le
    rcases h : transport a with _ | code | msg | msg <;>
      simp only [runFrom, h]
    · omega
    · by_cases h4 : 400 ≤ code ∧ code < 500
      · rw [if_pos h4]
        dsimp only
        omega
      · rw [if_neg h4]
        exact le_trans (ih _ _ _ _ _) (by omega)
    · exact le_trans (ih _ _ _ _ _) (by omega)
    · exact le_trans (ih _ _ _ _ _) (by omega)

/-- Characterization of the loop when every remaining attempt fails with a
retriable (non-4xx) failure: all `fuel` iterations run, each failed attempt
contributes its rotation-then-sleep events, and the loop ends raising the last
attempt's error (or the carried one when no iteration remains). -/
theorem runFrom_all_fail_spec (cfg : ClientConfig)
    (transport : Nat → AttemptResult) (ids : Nat → String) (tS tE : Nat → Nat)
    (method url : String) (proxyFor : String → String) :
    ∀ (fuel a : Nat) (s : TrackerState) (evs : List Ev) (att : Nat)
      (e0 : Option AttemptResult),
    (∀ i, a ≤ i → i < a + fuel →
      attemptFails (transport i) = true ∧ is4xx (transport i) = false) →
    runFrom cfg transport ids tS tE method url proxyFor fuel a s evs att e0
      = ⟨runStates cfg transport ids tS tE method url proxyFor a fuel s,
         evs ++ failEventsFrom cfg transport a fuel,
         att + fuel,
         .error (match fuel, e0 with
           | 0, some e => ReqError.fromAttempt e
           | 0, none => ReqError.allRetriesFailed
           | _ + 1, _ => ReqError.fromAttempt (transport (a + fuel - 1)))⟩ := by
  intro fuel
  induction fuel with
  | zero =>
    intro a s evs att e0 _
    cases e0 <;> simp [runFrom, runStates, failEventsFrom]
  | succ n ih =>
    intro a s evs att e0 hf
    have ha := hf a (le_refl a) (by omega)
    rcases h : transport a with _ | code | msg | msg
    · rw [h] at ha
      exact absurd ha.1 (by simp [attemptFails])
    · have h4 : ¬ (400 ≤ code ∧ code < 500) := by
        have h2 := ha.2
        rw [h] at h2
        simpa [is4xx] using h2
      simp only [runFrom, h]
      rw [if_neg h4,
        ih (a + 1) _ _ _ _ (fun i hi1 hi2 => hf i (by omega) (by omega))]
      simp only [RunOut.mk.injEq]
      refine ⟨rfl, ?_, by omega, ?_⟩
      · show _ = evs ++ failEventsFrom cfg transport a (n + 1)
        rw [failEventsFrom]
        have hrot : rotatesOn (transport a) = true := by
          rw [h]
          simp [rotatesOn, h4]
        by_cases he : cfg.flareprox_enabled <;>
          by_cases hs : a < cfg.max_retries - 1 <;>
          simp [he, hs, evFor, hrot, List.append_assoc]
      · cases n with
        | zero =>
          have hidx : a + (0 + 1) - 1 = a := by omega
          rw [hidx, h]
        | succ m =>
          have hidx : a + 1 + (m + 1) - 1 = a + (m + 1 + 1) - 1 := by omega
          rw [hidx]
    · simp only [runFrom, h]
      rw [ih (a + 1) _ _ _ _ (fun i hi1 hi2 => hf i (by omega) (by omega))]
      simp only [RunOut.mk.injEq]
      refine ⟨rfl, ?_, by omega, ?_⟩
      · show _ = evs ++ failEventsFrom cfg transport a (n + 1)
        rw [failEventsFrom]
        have hrot : rotatesOn (transport a) = true := by
          rw [h]
          rfl
        by_cases he : cfg.flareprox_enabled <;>
          by_cases hs : a < cfg.max_retries - 1 <;>
          simp [he, hs, evFor, hrot, List.append_assoc]
      · cases n with
        | zero =>
          have hidx : a + (0 + 1) - 1 = a := by omega
          rw [hidx, h]
        | succ m =>
          have hidx : a + 1 + (m + 1) - 1 = a + (m + 1 + 1) - 1 := by omega
          rw [hidx]
    · simp only [runFrom, h]
      rw [ih (a + 1) _ _ _ _ (fun i hi1 hi2 => hf i (by omega) (by omega))]
      simp only [RunOut.mk.injEq]
      refine ⟨rfl, ?_, by omega, ?_⟩
      · show _ = evs ++ failEventsFrom cfg transport a (n + 1)
        rw [failEventsFrom]
        have hrot : rotatesOn (transport a) = false := by
          rw [h]
          rfl
        by_cases hs : a < cfg.max_retries - 1 <;>
          simp [hs, evFor, hrot, List.append_assoc]
      · cases n with
        | zero =>
          have hidx : a + (0 + 1) - 1 = a := by omega
          rw [hidx, h]
        | succ m =>
          have hidx : a + 1 + (m + 1) - 1 = a + (m + 1 + 1) - 1 := by omega
          rw [hidx]

/-- Characterization of the loop when attempts `a, ..., a+j-1` fail with
retriable (non-4xx) failures and attempt `a+j` succeeds: the successful
response is returned after `j + 1` iterations, with the failed attempts'
rotation-then-sleep events and nothing more. -/
theorem runFrom_success_spec (cfg : ClientConfig)
    (transport : Nat → AttemptResult) (ids : Nat → String) (tS tE : Nat → Nat)
    (method url : String) (proxyFor : String → String) :
    ∀ (j rem a : Nat) (s : TrackerState) (evs : List Ev) (att : Nat)
      (e0 : Option AttemptResult),
    (∀ i, a ≤ i → i < a + j →
      attemptFails (transport i) = true ∧ is4xx (transport i) = false) →
    transport (a + j) = AttemptResult.success →
    runFrom cfg transport ids tS tE method url proxyFor (j + 1 + rem) a s evs
        att e0
      = ⟨runStates cfg transport ids tS tE method url proxyFor a (j + 1) s,
         evs ++ failEventsFrom cfg transport a j,
         att + j + 1,
         .ok (a + j)⟩ := by
  intro j
  induction j with
  | zero =>
    intro rem a s evs att e0 _ hsucc
    have hfuel : 0 + 1 + rem = rem + 1 := by omega
    rw [hfuel]
    have hs : transport a = AttemptResult.success := by simpa using hsucc
    simp only [runFrom, hs]
    simp [runStates, failEventsFrom]
  | succ m ih =>
    intro rem a s evs att e0 hf hsucc
    have hfuel : m + 1 + 1 + rem = m + 1 + rem + 1 := by omega
    rw [hfuel]
    have ha := hf a (le_refl a) (by omega)
    have hsucc' : transport (a + 1 + m) = AttemptResult.success := by
      have hidx : a + 1 + m = a + (m + 1) := by omega
      rw [hidx]
      exact hsucc
    have hshift : ∀ i, a + 1 ≤ i → i < a + 1 + m →
        attemptFails (transport i) = true ∧ is4xx (transport i) = false :=
      fun i hi1 hi2 => hf i (by omega) (by omega)
    rcases h : transport a with _ | code | msg | msg
    · rw [h] at ha
      exact absurd ha.1 (by simp [attemptFails])
    · have h4 : ¬ (400 ≤ code ∧ code < 500) := by
        have h2 := ha.2
        rw [h] at h2
        simpa [is4xx] using h2
      simp only [runFrom, h]
      rw [if_neg h4, ih rem (a + 1) _ _ _ _ hshift hsucc']
      simp only [RunOut.mk.injEq]
      refine ⟨rfl, ?_, by omega, by rw [show a + 1 + m = a + (m + 1) from by omega]⟩
      show _ = evs ++ failEventsFrom cfg transport a (m + 1)
      rw [failEventsFrom]
      have hrot : rotatesOn (transport a) = true := by
        rw [h]
        simp [rotatesOn, h4]
      by_cases he : cfg.flareprox_enabled <;>
        by_cases hs : a < cfg.max_retries - 1 <;>
        simp [he, hs, evFor, hrot, List.append_assoc]
    · simp only [runFrom, h]
      rw [ih rem (a + 1) _ _ _ _ hshift hsucc']
      simp only [RunOut.mk.injEq]
      refine ⟨rfl, ?_, by omega, by rw [show a + 1 + m = a + (m + 1) from by omega]⟩
      show _ = evs ++ failEventsFrom cfg transport a (m + 1)
      rw [failEventsFrom]
      have hrot : rotatesOn (transport a) = true := by
        rw [h]
        rfl
      by_cases he : cfg.flareprox_enabled <;>
        by_cases hs : a < cfg.max_retries - 1 <;>
        simp [he, hs, evFor, hrot, List.append_assoc]
    · simp only [runFrom, h]
      rw [ih rem (a + 1) _ _ _ _ hshift hsucc']
      simp only [RunOut.mk.injEq]
      refine ⟨rfl, ?_, by omega, by rw [show a + 1 + m = a + (m + 1) from by omega]⟩
      show _ = evs ++ failEventsFrom cfg transport a (m + 1)
      rw [failEventsFrom]
      have hrot : rotatesOn (transport a) = false := by
        rw [h]
        rfl
      by_cases hs : a < cfg.max_retries - 1 <;>
        simp [hs, evFor, hrot, List.append_assoc]

/-- Characterization of the loop when attempts `a, ..., a+j-1` fail with
retriable failures and attempt `a+j` receives a 4xx status: the error
propagates immediately after `j + 1` iterations; the 4xx attempt contributes
no rotation and no sleep. -/
theorem runFrom_client_error_spec (cfg : ClientConfig)
    (transport : Nat → AttemptResult) (ids : Nat → String) (tS tE : Nat → Nat)
    (method url : String) (proxyFor : String → String) :
    ∀ (j rem a : Nat) (s : TrackerState) (evs : List Ev) (att : Nat)
      (e0 : Option AttemptResult) (code : Nat),
    (∀ i, a ≤ i → i < a + j →
      attemptFails (transport i) = true ∧ is4xx (transport i) = false) →
    transport (a + j) = AttemptResult.httpStatus code →
    400 ≤ code → code < 500 →
    runFrom cfg transport ids tS tE method url proxyFor (j + 1 + rem) a s evs
        att e0
      = ⟨runStates cfg transport ids tS tE method url proxyFor a (j + 1) s,
         evs ++ failEventsFrom cfg transport a j,
         att + j + 1,
         .error (.fromAttempt (.httpStatus code))⟩ := by
  intro j
  induction j with
  | zero =>
    intro rem a s evs att e0 code _ h4xx h400 h500
    have hfuel : 0 + 1 + rem = rem + 1 := by omega
    rw [hfuel]
    have hs : transport a = AttemptResult.httpStatus code := by simpa using h4xx
    simp only [runFrom, hs]
    rw [if_pos ⟨h400, h500⟩]
    simp [runStates, failEventsFrom]
  | succ m ih =>
    intro rem a s evs att e0 code hf h4xx h400 h500
    have hfuel : m + 1 + 1 + rem = m + 1 + rem + 1 := by omega
    rw [hfuel]
    have ha := hf a (le_refl a) (by omega)
    have h4xx' : transport (a + 1 + m) = AttemptResult.httpStatus code := by
      have hidx : a + 1 + m = a + (m + 1) := by omega
      rw [hidx]
      exact h4xx
    have hshift : ∀ i, a + 1 ≤ i → i < a + 1 + m →
        attemptFails (transport i) = true ∧ is4xx (transport i) = false :=
      fun i hi1 hi2 => hf i (by omega) (by omega)
    rcases h : transport a with _ | code0 | msg | msg
    · rw [h] at ha
      exact absurd ha.1 (by simp [attemptFails])
    · have h4 : ¬ (400 ≤ code0 ∧ code0 < 500) := by
        have h2 := ha.2
        rw [h] at h2
        simpa [is4xx] using h2
      simp only [runFrom, h]
      rw [if_neg h4, ih rem (a + 1) _ _ _ _ _ hshift h4xx' h400 h500]
      simp only [RunOut.mk.injEq]
      refine ⟨rfl, ?_, by omega, trivial⟩
      show _ = evs ++ failEventsFrom cfg transport a (m + 1)
      rw [failEventsFrom]
      have hrot : rotatesOn (transport a) = true := by
        rw [h]
        simp [rotatesOn, h4]
      by_cases he : cfg.flareprox_enabled <;>
        by_cases hs : a < cfg.max_retries - 1 <;>
        simp [he, hs, evFor, hrot, List.append_assoc]
    · simp only [runFrom, h]
      rw [ih rem (a + 1) _ _ _ _ _ hshift h4xx' h400 h500]
      simp only [RunOut.mk.injEq]
      refine ⟨rfl, ?_, by omega, trivial⟩
      show _ = evs ++ failEventsFrom cfg transport a (m + 1)
      rw [failEventsFrom]
      have hrot : rotatesOn (transport a) = true := by
        rw [h]
        rfl
      by_cases he : cfg.flareprox_enabled <;>
        by_cases hs : a < cfg.max_retries - 1 <;>
        simp [he, hs, evFor, hrot, List.append_assoc]
    · simp only [runFrom, h]
      rw [ih rem (a + 1) _ _ _ _ _ hshift h4xx' h400 h500]
      simp only [RunOut.mk.injEq]
      refine ⟨rfl, ?_, by omega, trivial⟩
      show _ = evs ++ failEventsFrom cfg transport a (m + 1)
      rw [failEventsFrom]
      have hrot : rotatesOn (transport a) = false := by
        rw [h]
        rfl
      by_cases hs : a < cfg.max_retries - 1 <;>
        simp [hs, evFor, hrot, List.append_assoc]

/-- Peeling the last attempt off `runStates`. -/
theorem runStates_snoc (cfg : ClientConfig) (transport : Nat → AttemptResult)
    (ids : Nat → String) (tS tE : Nat → Nat) (method url : String)
    (proxyFor : String → String) :
    ∀ (n a : Nat) (s : TrackerState),
    runStates cfg transport ids tS tE method url proxyFor a (n + 1) s
      = attemptStep cfg transport ids tS tE method url proxyFor (a + n)
          (runStates cfg transport ids tS tE method url proxyFor a n s) := by
  intro n
  induction n with
  | zero =>
    intro a s
    simp [runStates]
  | succ m ih =>
    intro a s
    show runStates cfg transport ids tS tE method url proxyFor (a + 1) (m + 1)
        (attemptStep cfg transport ids tS tE method url proxyFor a s) = _
    rw [ih (a + 1)]
    have hidx : a + 1 + m = a + (m + 1) := by omega
    rw [hidx]
    rfl

/-- C4: When an attempt inside the retry loop receives a 4xx status (after any
run of retriable failures, and on fresh tracking ids), the error propagates
immediately: the run ends with that `HTTPStatusError`, no further attempts are
consumed, the event trace contains nothing from the 4xx attempt — in
particular no rotation for that failure — and the attempt's tracked context
completes with status `"failed"`. -/
theorem requestWithRetry_4xx_short_circuit
    (cfg : ClientConfig) (transport : Nat → AttemptResult) (ids : Nat → String)
    (tS tE : Nat → Nat) (method url : String) (proxyFor : String → String)
    (s0 : TrackerState) (j code : Nat)
    (hf : ∀ i, i < j →
      attemptFails (transport i) = true ∧ is4xx (transport i) = false)
    (hj : j < cfg.max_retries)
    (h4xx : transport j = AttemptResult.httpStatus code)
    (h400 : 400 ≤ code) (h500 : code < 500)
    (hA : alookup (runStates cfg transport ids tS tE method url proxyFor 0 j
      s0).active (ids j) = none)
    (hC : alookup (runStates cfg transport ids tS tE method url proxyFor 0 j
      s0).completed (ids j) = none)
    (hroom : (runStates cfg transport ids tS tE method url proxyFor 0 j
        s0).completed.length
      < (runStates cfg transport ids tS tE method url proxyFor 0 j
        s0).max_tracked_requests) :
    (make_request_with_retry cfg transport ids tS tE method url proxyFor
        s0).result = .error (.fromAttempt (.httpStatus code))
    ∧ (make_request_with_retry cfg transport ids tS tE method url proxyFor
        s0).events = failEventsFrom cfg transport 0 j
    ∧ (make_request_with_retry cfg transport ids tS tE method url proxyFor
        s0).attempts = j + 1
    ∧ alookup (make_request_with_retry cfg transport ids tS tE method url
          proxyFor s0).state.completed (ids j)
        = some (completedCtx (ids j) (tS j) (tE j) url
            (proxyUrlOf cfg proxyFor url) (attemptMeta method j) "failed"
            (some (errMsg (AttemptResult.httpStatus code)))) := by
  have hrun := runFrom_client_error_spec cfg transport ids tS tE method url
    proxyFor j (cfg.max_retries - j - 1) 0 s0 [] 0 none code
    (fun i _ hi2 => hf i (by omega)) (by simpa using h4xx) h400 h500
  have hfuel : j + 1 + (cfg.max_retries - j - 1) = cfg.max_retries := by omega
  rw [hfuel] at hrun
  unfold make_request_with_retry
  rw [hrun]
  refine ⟨rfl, by simp, by simp, ?_⟩
  show alookup (runStates cfg transport ids tS tE method url proxyFor 0 (j + 1)
    s0).completed (ids j) = _
  rw [runStates_snoc]
  have hstep : attemptStep cfg transport ids tS tE method url proxyFor (0 + j)
      (runStates cfg transport ids tS tE method url proxyFor 0 j s0)
    = (track_request
        (runStates cfg transport ids tS tE method url proxyFor 0 j s0)
        (ids j) (tS j) (tE j) url (proxyUrlOf cfg proxyFor url)
        (attemptMeta method j)
        (BlockExit.exc (errMsg (AttemptResult.httpStatus code)))).1 := by
    unfold attemptStep
    rw [show (0 : Nat) + j = j from by omega, h4xx]
    rfl
  rw [hstep]
  have hretire := track_request_always_retires
    (runStates cfg transport ids tS tE method url proxyFor 0 j s0)
    (ids j) (tS j) (tE j) url (proxyUrlOf cfg proxyFor url)
    (attemptMeta method j)
    (BlockExit.exc (errMsg (AttemptResult.httpStatus code)))
    hA hC hroom (fun hcontra => BlockExit.noConfusion hcontra)
  exact hretire.2.1

/-- C3: `_make_request_with_retry` enters at most `max_retries` loop
iterations.  When every attempt fails with a retriable (non-4xx) failure, all
`max_retries` attempts run, each failed non-final attempt sleeps
`retry_delay * 2 ^ attempt` (rotating the pool by `-1` first when the pool is
enabled and the failure class rotates), and the loop re-raises the last
attempt's error — or the generic all-retries-failed error when no error object
exists (`max_retries = 0`).  When a prefix of attempts fails retriably and
attempt `k` succeeds, the response of attempt `k` is returned after exactly
`k + 1` iterations with the same per-failure event schedule. -/
theorem requestWithRetry_policy (cfg : ClientConfig)
    (transport : Nat → AttemptResult) (ids : Nat → String) (tS tE : Nat → Nat)
    (method url : String) (proxyFor : String → String) (s0 : TrackerState) :
    (make_request_with_retry cfg transport ids tS tE method url proxyFor
        s0).attempts ≤ cfg.max_retries
    ∧ ((∀ i, i < cfg.max_retries →
          attemptFails (transport i) = true ∧ is4xx (transport i) = false) →
        (0 < cfg.max_retries →
          (make_request_with_retry cfg transport ids tS tE method url proxyFor
              s0).result
            = .error (.fromAttempt (transport (cfg.max_retries - 1)))
          ∧ (make_request_with_retry cfg transport ids tS tE method url
              proxyFor s0).events
            = failEventsFrom cfg transport 0 cfg.max_retries)
        ∧ (cfg.max_retries = 0 →
          (make_request_with_retry cfg transport ids tS tE method url proxyFor
              s0).result = .error .allRetriesFailed))
    ∧ (∀ k, k < cfg.max_retries →
        (∀ i, i < k →
          attemptFails (transport i) = true ∧ is4xx (transport i) = false) →
        transport k = AttemptResult.success →
        (make_request_with_retry cfg transport ids tS tE method url proxyFor
            s0).result = .ok k
        ∧ (make_request_with_retry cfg transport ids tS tE method url proxyFor
            s0).events = failEventsFrom cfg transport 0 k
        ∧ (make_request_with_retry cfg transport ids tS tE method url proxyFor
            s0).attempts = k + 1) := by
  refine ⟨?_, ?_, ?_⟩
  · have h := runFrom_attempts_le cfg transport ids tS tE method url proxyFor
      cfg.max_retries 0 s0 [] 0 none
    simpa [make_request_with_retry] using h
  · intro hall
    constructor
    · intro hpos
      obtain ⟨m, hm⟩ : ∃ m, cfg.max_retries = m + 1 :=
        ⟨cfg.max_retries - 1, by omega⟩
      have hrun := runFrom_all_fail_spec cfg transport ids tS tE method url
        proxyFor (m + 1) 0 s0 [] 0 none
        (fun i _ hi2 => hall i (by omega))
      unfold make_request_with_retry
      rw [hm, hrun]
      refine ⟨?_, by simp⟩
      have hidx : 0 + (m + 1) - 1 = m + 1 - 1 := by omega
      rw [hidx]
    · intro h0
      unfold make_request_with_retry
      rw [h0]
      rfl
  · intro k hk hpre hsucc
    have hrun := runFrom_success_spec cfg transport ids tS tE method url
      proxyFor k (cfg.max_retries - k - 1) 0 s0 [] 0 none
      (fun i _ hi2 => hpre i (by omega)) (by simpa using hsucc)
    have hfuel : k + 1 + (cfg.max_retries - k - 1) = cfg.max_retries := by
      omega
    rw [hfuel] at hrun
    unfold make_request_with_retry
    rw [hrun]
    exact ⟨by simp, by simp, by simp⟩

/-- A transport that fails with 503 on the first two attempts and succeeds on
the third — the spec's retry/rotation scenario. -/
def demoTransport : Nat → AttemptResult :=
  fun i => if i < 2 then .httpStatus 503 else .success

/-- Sequential correlation ids for the demo runs. -/
def demoIds : Nat → String := fun i => "req" ++ toString i

/-- A simple clock for the demo runs. -/
def demoT : Nat → Nat := fun i => i

/-- Witness for C3: with `max_retries = 3`, delay 1 and the pool enabled, the
503/503/success transport yields the attempt-2 response, the events being
rotate, sleep `1*2^0`, rotate, sleep `1*2^1`. -/
theorem requestWithRetry_policy_witness :
    (make_request_with_retry ⟨3, 1, true⟩ demoTransport demoIds demoT demoT
        "GET" "u" (fun _ => "p") (initTracker 10000 300 3600)).result = .ok 2
    ∧ (make_request_with_retry ⟨3, 1, true⟩ demoTransport demoIds demoT demoT
        "GET" "u" (fun _ => "p") (initTracker 10000 300 3600)).events
      = [Ev.rotate (-1), Ev.sleep 1, Ev.rotate (-1), Ev.sleep 2]
    ∧ (make_request_with_retry ⟨3, 1, true⟩ demoTransport demoIds demoT demoT
        "GET" "u" (fun _ => "p") (initTracker 10000 300 3600)).attempts ≤ 3 := by
  have h := requestWithRetry_policy ⟨3, 1, true⟩ demoTransport demoIds demoT
    demoT "GET" "u" (fun _ => "p") (initTracker 10000 300 3600)
  have h3 := h.2.2 2 (by decide) (by decide) (by decide)
  exact ⟨h3.1, by rw [h3.2.1]; decide, h.1⟩

/-- Witness for C4: a 404 on the first attempt propagates at once, with no
events (in particular no rotation) and a `"failed"` tracked context. -/
theorem requestWithRetry_4xx_short_circuit_witness :
    (make_request_with_retry ⟨3, 1, true⟩ (fun _ => .httpStatus 404) demoIds
        demoT demoT "GET" "u" (fun _ => "p")
        (initTracker 10000 300 3600)).result
      = .error (.fromAttempt (.httpStatus 404))
    ∧ (make_request_with_retry ⟨3, 1, true⟩ (fun _ => .httpStatus 404) demoIds
        demoT demoT "GET" "u" (fun _ => "p")
        (initTracker 10000 300 3600)).events = []
    ∧ (make_request_with_retry ⟨3, 1, true⟩ (fun _ => .httpStatus 404) demoIds
        demoT demoT "GET" "u" (fun _ => "p")
        (initTracker 10000 300 3600)).attempts = 1 := by
  have h := requestWithRetry_4xx_short_circuit ⟨3, 1, true⟩
    (fun _ => .httpStatus 404) demoIds demoT demoT "GET" "u" (fun _ => "p")
    (initTracker 10000 300 3600) 0 404 (fun i hi => absurd hi (by omega))
    (by decide) rfl (by decide) (by decide) rfl rfl (by decide)
  exact ⟨h.1, h.2.1, h.2.2.1⟩

/-- A successful `alookup` pairs the key with a member of the list. -/
theorem alookup_mem (m : List (String × RequestContext)) (k : String)
    (v : RequestContext) (h : alookup m k = some v) : (k, v) ∈ m := by
  induction m with
  | nil => cases h
  | cons p ps ih =>
    by_cases hp : p.1 = k
    · simp only [alookup, if_pos hp, Option.some.injEq] at h
      have : (k, v) = p := by
        rw [← hp, ← h]
      rw [this]
      exact List.mem_cons_self p ps
    · simp only [alookup, if_neg hp] at h
      exact List.mem_cons_of_mem p (ih h)

/-- Members of `dictInsert m k v` are the new tuple or members of `m`. -/
theorem mem_dictInsert (m : List (String × RequestContext)) (k : String)
    (v : RequestContext) (p : String × RequestContext)
    (h : p ∈ dictInsert m k v) : p = (k, v) ∨ p ∈ m := by
  unfold dictInsert at h
  by_cases hc : (m.map Prod.fst).contains k = true
  · rw [if_pos hc] at h
    rcases List.mem_map.mp h with ⟨q, hq, hqe⟩
    by_cases hqk : q.1 = k
    · rw [if_pos hqk] at hqe
      exact Or.inl hqe.symm
    · rw [if_neg hqk] at hqe
      exact Or.inr (hqe ▸ hq)
  · rw [if_neg hc] at h
    rcases List.mem_append.mp h with hm | he
    · exact Or.inr hm
    · exact Or.inl (by simpa using he)

/-- Members of `dictRemove m k` are members of `m`. -/
theorem mem_dictRemove (m : List (String × RequestContext)) (k : String)
    (p : String × RequestContext) (h : p ∈ dictRemove m k) : p ∈ m :=
  (List.mem_filter.mp h).1

/-- No tracked context — active or completed — carries a nonzero
`retry_count`. -/
def retryFree (s : TrackerState) : Prop :=
  (∀ p ∈ s.active, p.2.retry_count = 0)
    ∧ (∀ p ∈ s.completed, p.2.retry_count = 0)

/-- `complete_request` never changes any `retry_count`. -/
theorem complete_request_retryFree (s : TrackerState) (id st : String)
    (err : Option String) (now : Nat) (h : retryFree s) :
    retryFree (complete_request s id st err now) := by
  unfold complete_request
  cases hl : alookup s.active id with
  | none => exact h
  | some c =>
    have hc0 : c.retry_count = 0 := h.1 (id, c) (alookup_mem _ _ _ hl)
    constructor
    · intro p hp
      rw [bumpCounters_active] at hp
      exact h.1 p (mem_dictRemove _ _ _ hp)
    · intro p hp
      have hp' : p ∈ dictInsert s.completed id
          ({ c with status := st, end_time := some now, error := err }) := by
        dsimp only at hp
        rw [bumpCounters_completed, bumpCounters_max_tracked] at hp
        split at hp
        · exact (List.mem_filter.mp hp).1
        · exact hp
      rcases mem_dictInsert _ _ _ _ hp' with he | hm
      · rw [he]
        exact hc0
      · exact h.2 p hm

/-- `track_request` never changes any `retry_count`: the created context
starts at zero and completion copies it. -/
theorem track_request_retryFree (s : TrackerState) (id : String)
    (t0 t1 : Nat) (target : String) (proxy : Option String)
    (md : List (String × String)) (exitK : BlockExit) (h : retryFree s) :
    retryFree (track_request s id t0 t1 target proxy md exitK).1 := by
  have hcreate : retryFree (create_context s id t0 target proxy md).1 := by
    constructor
    · intro p hp
      have hp' : p ∈ dictInsert s.active id (pendingCtx id t0 target proxy md) := hp
      rcases mem_dictInsert _ _ _ _ hp' with he | hm
      · rw [he]
        rfl
      · exact h.1 p hm
    · intro p hp
      exact h.2 p hp
  cases exitK with
  | normal => exact complete_request_retryFree _ _ _ _ _ hcreate
  | timeoutError => exact complete_request_retryFree _ _ _ _ _ hcreate
  | exc msg => exact complete_request_retryFree _ _ _ _ _ hcreate
  | baseExc => exact hcreate

/-- The retry loop never changes any `retry_count`. -/
theorem runFrom_retryFree (cfg : ClientConfig)
    (transport : Nat → AttemptResult) (ids : Nat → String) (tS tE : Nat → Nat)
    (method url : String) (proxyFor : String → String) :
    ∀ (fuel a : Nat) (s : TrackerState) (evs : List Ev) (att : Nat)
      (le : Option AttemptResult),
    retryFree s →
    retryFree (runFrom cfg transport ids tS tE method url proxyFor fuel a s
      evs att le).state := by
  intro fuel
  induction fuel with
  | zero =>
    intro a s evs att le h
    simpa [runFrom] using h
  | succ n ih =>
    intro a s evs att le h
    have hstep :
        retryFree (attemptStep cfg transport ids tS tE method url proxyFor a s) :=
      track_request_retryFree _ _ _ _ _ _ _ _ h
    rcases htr : transport a with _ | code | msg | msg <;>
      simp only [runFrom, htr]
    · exact hstep
    · by_cases h4 : 400 ≤ code ∧ code < 500
      · rw [if_pos h4]
        exact hstep
      · rw [if_neg h4]
        exact ih _ _ _ _ _ hstep
    · exact ih _ _ _ _ _ hstep
    · exact ih _ _ _ _ _ hstep

/-- Counterexample to C9: a run with `max_retries = 3` whose first two
attempts fail (two retries happen — three iterations are entered), yet every
context the tracker holds afterwards records `retry_count = 0`, not 2:
`_make_request_with_retry` never calls `increment_retry`. -/
theorem retry_count_not_recorded :
    (make_request_with_retry ⟨3, 1, true⟩ demoTransport demoIds demoT demoT
        "GET" "u" (fun _ => "p") (initTracker 10000 300 3600)).attempts = 3
    ∧ ∀ p ∈ (make_request_with_retry ⟨3, 1, true⟩ demoTransport demoIds demoT
        demoT "GET" "u" (fun _ => "p")
        (initTracker 10000 300 3600)).state.completed,
      p.2.retry_count = 0 := by
  exact ⟨by decide, by decide⟩

/-- C9 (amended): the tracker's `increment_retry` bumps `retry_count` by one
on an active context and is a no-op otherwise, but the resilient HTTP client
never invokes it: `_make_request_with_retry` opens a fresh context per attempt
(recording the attempt number in metadata instead), and a run started from a
tracker whose contexts all carry `retry_count = 0` ends with every context
still at `retry_count = 0`, however many retries occur. -/
theorem retry_count_never_incremented :
    (∀ (s : TrackerState) (id : String) (c : RequestContext),
        alookup s.active id = some c →
        alookup (increment_retry s id).active id
          = some { c with retry_count := c.retry_count + 1 })
    ∧ (∀ (s : TrackerState) (id : String),
        alookup s.active id = none → increment_retry s id = s)
    ∧ (∀ (cfg : ClientConfig) (transport : Nat → AttemptResult)
        (ids : Nat → String) (tS tE : Nat → Nat) (method url : String)
        (proxyFor : String → String) (s0 : TrackerState),
        retryFree s0 →
        retryFree (make_request_with_retry cfg transport ids tS tE method url
          proxyFor s0).state) := by
  refine ⟨?_, ?_, ?_⟩
  · intro s id c h
    unfold increment_retry
    simp only [h]
    exact alookup_dictInsert_self _ _ _
  · intro s id h
    unfold increment_retry
    simp only [h]
  · intro cfg transport ids tS tE method url proxyFor s0 h0
    exact runFrom_retryFree cfg transport ids tS tE method url proxyFor
      cfg.max_retries 0 s0 [] 0 none h0

/-- Witness for the amended C9: the demo run keeps every context at
`retry_count = 0`, and `increment_retry` itself bumps an active context. -/
theorem retry_count_never_incremented_witness :
    retryFree (make_request_with_retry ⟨3, 1, true⟩ demoTransport demoIds
      demoT demoT "GET" "u" (fun _ => "p")
      (initTracker 10000 300 3600)).state
    ∧ alookup (increment_retry seqState1 "req_a").active "req_a"
        = some { pendingCtx "req_a" 0 "urlx" none [] with retry_count := 1 } :=
  ⟨(retry_count_never_incremented).2.2 ⟨3, 1, true⟩ demoTransport demoIds
      demoT demoT "GET" "u" (fun _ => "p") (initTracker 10000 300 3600)
      ⟨fun p hp => absurd hp (List.not_mem_nil p),
        fun p hp => absurd hp (List.not_mem_nil p)⟩,
    (retry_count_never_incremented).1 seqState1 "req_a"
      (pendingCtx "req_a" 0 "urlx" none []) rfl⟩

end HttpClient
